import Mathlib

/-
Verification of the countdown-timer component in
`src/components/Countdown.tsx` (the only source file of the repository).

The component state is five React hooks:
  `duration  : number | string` (initially `""`),
  `timeLeft  : number`          (initially `0`),
  `isActive  : boolean`         (initially `false`),
  `isPaused  : boolean`         (initially `false`),
  `timerRef  : Timeout | null`  (a ref, initially `null`),
plus a `useEffect` with dependency array `[isActive, isPaused]` that owns
the `setInterval` handle.

The embedding below models JavaScript numbers by rationals extended with
the two infinities and NaN (exact for every value these claims touch),
interval handles by natural-number ids together with the list of ids that
have been allocated by `setInterval` and not yet passed to
`clearInterval`, and one user interaction as: run the handler, then run
the effect reconciliation exactly when the `[isActive, isPaused]`
dependencies changed (React re-runs the effect, cleanup first, only on a
render whose dependencies differ from those of the previous render).
-/

/-- A JavaScript number: a finite value (modelled exactly by a rational;
every value reachable in this component from small inputs is represented
exactly by an IEEE double), positive or negative infinity, or NaN. -/
inductive JSNum where
  | finite (q : ℚ)
  | posInf
  | negInf
  | nan
deriving DecidableEq

/-- The `isNaN` test used by `handleDurationChange` (line 111). -/
def JSNum.isNaN : JSNum → Bool
  | .nan => true
  | _ => false

/-- JavaScript `<` on numbers: false whenever either side is NaN. -/
def JSNum.lt : JSNum → JSNum → Bool
  | .nan, _ => false
  | _, .nan => false
  | .negInf, .negInf => false
  | .negInf, _ => true
  | _, .negInf => false
  | .posInf, _ => false
  | .finite _, .posInf => true
  | .finite a, .finite b => decide (a < b)

/-- JavaScript `<=` on numbers: false whenever either side is NaN,
otherwise the negation of the reversed `<`. -/
def JSNum.le (a b : JSNum) : Bool :=
  match a, b with
  | .nan, _ => false
  | _, .nan => false
  | _, _ => !(JSNum.lt b a)

/-- JavaScript `>` on numbers (`duration > 0`, `timeLeft > 0`). -/
def JSNum.gt (a b : JSNum) : Bool := JSNum.lt b a

/-- JavaScript subtraction of 1 (`prevTime - 1`, line 87): exact on the
finite values in play; infinities and NaN are absorbing. -/
def JSNum.subOne : JSNum → JSNum
  | .finite q => .finite (q - 1)
  | .posInf => .posInf
  | .negInf => .negInf
  | .nan => .nan

/-- The component state of `Countdown.tsx`.  `duration = none` models the
string state `""` (the input field cleared); `duration = some v` models a
stored number `v`, so `typeof duration === "number"` is `duration.isSome`.
`timerRef` is the ref holding the current interval id or `null`; `live`
is the list of interval ids created by `setInterval` and not yet cleared
by `clearInterval` (instrumentation used to state resource claims, not
part of the state held by the component itself); `nextId` feeds fresh ids. -/
structure CState where
  duration : Option JSNum
  timeLeft : JSNum
  isActive : Bool
  isPaused : Bool
  timerRef : Option ℕ
  live : List ℕ
  nextId : ℕ
deriving DecidableEq

/-- The freshly mounted component (initial hook values, lines 10-22). -/
def initState : CState :=
  { duration := none
    timeLeft := .finite 0
    isActive := false
    isPaused := false
    timerRef := none
    live := []
    nextId := 0 }

/-- The recurring cleanup pattern
`if (timerRef.current) { clearInterval(timerRef.current); timerRef.current = null; }`
(lines 33-36, 57-60, 71-74, 94-98); also models the single call
`clearInterval(timerRef.current!)` on line 85, where a null ref makes
`clearInterval` a no-op. -/
def clearTimer (s : CState) : CState :=
  match s.timerRef with
  | some i => { s with timerRef := none, live := s.live.erase i }
  | none => s

/-- `timerRef.current = setInterval(..., 1000)` (line 81): allocates a
fresh interval id and stores it in the ref. -/
def newTicker (s : CState) : CState :=
  { s with
    timerRef := some s.nextId
    live := s.live ++ [s.nextId]
    nextId := s.nextId + 1 }

/-- `handleSetDuration` (lines 24-38): only if `typeof duration === "number"`
and `duration > 0`, set `timeLeft` to it, deactivate, unpause, clear the
input field, and clear any existing interval; otherwise do nothing. -/
def handleSetDuration (s : CState) : CState :=
  match s.duration with
  | some v =>
      if JSNum.gt v (.finite 0) then
        clearTimer { s with
          timeLeft := v
          isActive := false
          isPaused := false
          duration := none }
      else s
  | none => s

/-- `handleStart` (lines 41-47): if `timeLeft > 0`, activate and unpause. -/
def handleStart (s : CState) : CState :=
  if JSNum.gt s.timeLeft (.finite 0) then
    { s with isActive := true, isPaused := false }
  else s

/-- `handlePause` (lines 50-62): if `isActive`, pause, deactivate and
clear the interval. -/
def handlePause (s : CState) : CState :=
  if s.isActive then clearTimer { s with isPaused := true, isActive := false }
  else s

/-- `handleReset` (lines 65-75): deactivate, unpause, set `timeLeft` to
`typeof duration === "number" ? duration : 0` (the current content of the
input field), and clear any running interval. -/
def handleReset (s : CState) : CState :=
  clearTimer { s with
    isActive := false
    isPaused := false
    timeLeft := s.duration.getD (.finite 0) }

/-- `handleDurationChange` (lines 109-116) after the `Number(...)`
conversion: store the converted value in `duration` unless it is NaN, in
which case store `""`. -/
def handleDurationChange (v : JSNum) (s : CState) : CState :=
  if v.isNaN then { s with duration := none } else { s with duration := some v }

/-- The interval callback (lines 82-88): inside the functional
`setTimeLeft` update, if `prevTime <= 1` clear the current interval and
null the ref, and in every case return `prevTime - 1`. -/
def tickBody (s : CState) : CState :=
  let s1 := if JSNum.le s.timeLeft (.finite 1) then clearTimer s else s
  { s1 with timeLeft := s.timeLeft.subOne }

/-- Reconciliation by React of the `useEffect` (lines 78-99) after a
handler ran: the effect re-runs exactly when its `[isActive, isPaused]`
dependencies changed; it first runs the previous cleanup (clear the ref
if non-null, lines 94-98) and then, if `isActive && !isPaused`, starts a
new interval (line 81). -/
def applyEffect (prevActive prevPaused : Bool) (t : CState) : CState :=
  if t.isActive == prevActive && t.isPaused == prevPaused then t
  else
    let t1 := clearTimer t
    if t1.isActive && !t1.isPaused then newTicker t1 else t1

/-- The observable events of one component instance: the four button
handlers, a change event on the duration input carrying the result of
`Number(event.target.value)`, and the firing of interval `i` (which can
only happen while `i` is live). -/
inductive Op where
  | durationChange (v : JSNum)
  | setDuration
  | start
  | pause
  | reset
  | tick (i : ℕ)
deriving DecidableEq

/-- One atomic step of the component: run the handler (or the interval
callback, which fires only if the interval is still live), then
reconcile the effect against the dependencies of the previous render. -/
def step (s : CState) : Op → CState
  | .durationChange v => applyEffect s.isActive s.isPaused (handleDurationChange v s)
  | .setDuration => applyEffect s.isActive s.isPaused (handleSetDuration s)
  | .start => applyEffect s.isActive s.isPaused (handleStart s)
  | .pause => applyEffect s.isActive s.isPaused (handlePause s)
  | .reset => applyEffect s.isActive s.isPaused (handleReset s)
  | .tick i => if i ∈ s.live then applyEffect s.isActive s.isPaused (tickBody s) else s

/-- The state reached from a fresh mount by a sequence of events. -/
def run (ops : List Op) : CState := ops.foldl step initState

/-- Whitespace characters recognised by the restricted coercion model
below (the ECMAScript coercion strips further exotic whitespace, which
nothing here produces). -/
def isSpaceChar (c : Char) : Bool :=
  c == ' ' || c == '\t' || c == '\n' || c == '\r'

/-- Strip leading and trailing whitespace from a character list. -/
def trimChars (l : List Char) : List Char :=
  ((l.dropWhile isSpaceChar).reverse.dropWhile isSpaceChar).reverse

/-- Value of a list of decimal digits. -/
def digitsVal (l : List Char) : ℕ :=
  l.foldl (fun n c => n * 10 + (c.toNat - 48)) 0

/-- Model of the ECMAScript string-to-number coercion performed by the
`Number(event.target.value)` call on line 110, restricted to the inputs
this development evaluates it on: a string that is empty after trimming
whitespace coerces to `0`, a string of decimal digits to the natural
number it denotes, `Infinity` (with or without a sign) to the matching
infinity, and the remaining strings of this restricted fragment to NaN
(the full coercion also accepts signs, fractions and exponents, none of
which is needed below). -/
def jsStringToNumber (t : String) : JSNum :=
  let u := trimChars t.toList
  if u = [] then .finite 0
  else if u = "Infinity".toList then .posInf
  else if u = "-Infinity".toList then .negInf
  else if u.all (fun c => c.isDigit) then .finite (digitsVal u)
  else .nan

/-- `String(n).padStart(2, "0")` (line 105) for a natural number `n`:
if the decimal representation has at least 2 characters it is returned
unchanged, otherwise it is left-padded with `"0"` up to length 2. -/
def padStart2 (t : String) : String :=
  if 2 ≤ t.length then t else (List.replicate (2 - t.length) '0').asString ++ t

/-- `formatTime` (lines 102-106) on a natural number of seconds:
`minutes = Math.floor(time / 60)`, `seconds = time % 60`, both rendered
in decimal, zero-padded to two characters and joined by `":"` (for
natural inputs, `Math.floor` of the true quotient is natural division
and `%` is the natural remainder). -/
def formatTime (time : ℕ) : String :=
  padStart2 (Nat.repr (time / 60)) ++ ":" ++ padStart2 (Nat.repr (time % 60))

/-- The rendering described by the specification text, written
independently of the implementation: minutes and seconds as decimal
numbers, each zero-padded to at least two digits (a single leading zero
exactly when the value is below 10), joined by `":"`. -/
def formatTimeSpec (time : ℕ) : String :=
  (if time / 60 < 10 then "0" ++ Nat.repr (time / 60) else Nat.repr (time / 60))
    ++ ":" ++
  (if time % 60 < 10 then "0" ++ Nat.repr (time % 60) else Nat.repr (time % 60))

/-- An event whose payload is admissible for the data model of the
specification: every duration-change event carries a non-negative whole number
(a finite rational with denominator 1 and non-negative numerator). -/
def natOp : Op → Bool
  | .durationChange (.finite q) => q.den == 1 && decide (0 ≤ q.num)
  | .durationChange _ => false
  | _ => true

/-- All events of a run carry non-negative whole-number duration inputs. -/
def natOps (ops : List Op) : Bool := ops.all natOp

/-! Basic facts about the building blocks. -/

theorem clearTimer_timerRef (s : CState) : (clearTimer s).timerRef = none := by
  cases h : s.timerRef <;> simp [clearTimer, h]

theorem clearTimer_duration (s : CState) : (clearTimer s).duration = s.duration := by
  cases h : s.timerRef <;> simp [clearTimer, h]

theorem clearTimer_timeLeft (s : CState) : (clearTimer s).timeLeft = s.timeLeft := by
  cases h : s.timerRef <;> simp [clearTimer, h]

theorem clearTimer_isActive (s : CState) : (clearTimer s).isActive = s.isActive := by
  cases h : s.timerRef <;> simp [clearTimer, h]

theorem clearTimer_isPaused (s : CState) : (clearTimer s).isPaused = s.isPaused := by
  cases h : s.timerRef <;> simp [clearTimer, h]

theorem clearTimer_nextId (s : CState) : (clearTimer s).nextId = s.nextId := by
  cases h : s.timerRef <;> simp [clearTimer, h]

theorem clearTimer_of_none (s : CState) (h : s.timerRef = none) : clearTimer s = s := by
  simp [clearTimer, h]

/-- The effect reconciliation is the identity when the run flags match
the dependencies of the previous render. -/
theorem applyEffect_same (a p : Bool) (t : CState)
    (h1 : t.isActive = a) (h2 : t.isPaused = p) : applyEffect a p t = t := by
  simp [applyEffect, h1, h2]

/-- The effect reconciliation is the identity on any inactive state
whose interval handle is already null. -/
theorem applyEffect_idle (a p : Bool) (t : CState)
    (h1 : t.isActive = false) (h2 : t.timerRef = none) : applyEffect a p t = t := by
  by_cases hc : (t.isActive == a && t.isPaused == p) = true
  · simp [applyEffect, hc]
  · simp only [applyEffect, hc, Bool.false_eq_true, if_false]
    rw [clearTimer_of_none t h2]
    simp [h1]

/-! Step characterizations: each user operation reduces to its handler
(the effect reconciliation never changes the state the handler left,
except for `Start`, which is where the interval gets created). -/

theorem step_durationChange (s : CState) (v : JSNum) :
    step s (.durationChange v) = handleDurationChange v s := by
  show applyEffect s.isActive s.isPaused (handleDurationChange v s) = handleDurationChange v s
  apply applyEffect_same <;> cases h : v.isNaN <;> simp [handleDurationChange, h]

theorem handleReset_isActive (s : CState) : (handleReset s).isActive = false := by
  simp [handleReset, clearTimer_isActive]

theorem handleReset_timerRef (s : CState) : (handleReset s).timerRef = none := by
  simp [handleReset, clearTimer_timerRef]

theorem step_reset (s : CState) : step s .reset = handleReset s := by
  show applyEffect s.isActive s.isPaused (handleReset s) = handleReset s
  exact applyEffect_idle _ _ _ (handleReset_isActive s) (handleReset_timerRef s)

theorem step_pause (s : CState) : step s .pause = handlePause s := by
  show applyEffect s.isActive s.isPaused (handlePause s) = handlePause s
  by_cases h : s.isActive
  · have hA : (handlePause s).isActive = false := by
      simp [handlePause, h, clearTimer_isActive]
    have hR : (handlePause s).timerRef = none := by
      simp [handlePause, h, clearTimer_timerRef]
    exact applyEffect_idle _ _ _ hA hR
  · have hs : handlePause s = s := by simp [handlePause, h]
    rw [hs]
    exact applyEffect_same _ _ _ rfl rfl

theorem step_setDuration (s : CState) : step s .setDuration = handleSetDuration s := by
  show applyEffect s.isActive s.isPaused (handleSetDuration s) = handleSetDuration s
  cases hd : s.duration with
  | none =>
      have hs : handleSetDuration s = s := by simp [handleSetDuration, hd]
      rw [hs]
      exact applyEffect_same _ _ _ rfl rfl
  | some v =>
      cases hgt : JSNum.gt v (.finite 0) with
      | false =>
          have hs : handleSetDuration s = s := by simp [handleSetDuration, hd, hgt]
          rw [hs]
          exact applyEffect_same _ _ _ rfl rfl
      | true =>
          have hA : (handleSetDuration s).isActive = false := by
            simp [handleSetDuration, hd, hgt, clearTimer_isActive]
          have hR : (handleSetDuration s).timerRef = none := by
            simp [handleSetDuration, hd, hgt, clearTimer_timerRef]
          exact applyEffect_idle _ _ _ hA hR

theorem step_tick_live (s : CState) (i : ℕ) (h : i ∈ s.live) :
    step s (.tick i) = tickBody s := by
  show (if i ∈ s.live then applyEffect s.isActive s.isPaused (tickBody s) else s) = tickBody s
  rw [if_pos h]
  apply applyEffect_same <;>
    by_cases hle : JSNum.le s.timeLeft (.finite 1) = true <;>
    simp [tickBody, hle, clearTimer_isActive, clearTimer_isPaused]

theorem step_tick_dead (s : CState) (i : ℕ) (h : ¬ i ∈ s.live) :
    step s (.tick i) = s := by
  show (if i ∈ s.live then applyEffect s.isActive s.isPaused (tickBody s) else s) = s
  rw [if_neg h]

theorem step_start_stuck (s : CState) (h : JSNum.gt s.timeLeft (.finite 0) = false) :
    step s .start = s := by
  show applyEffect s.isActive s.isPaused (handleStart s) = s
  have hs : handleStart s = s := by simp [handleStart, h]
  rw [hs]
  exact applyEffect_same _ _ _ rfl rfl

theorem step_start_already (s : CState) (h : JSNum.gt s.timeLeft (.finite 0) = true)
    (ha : s.isActive = true) (hp : s.isPaused = false) :
    step s .start = { s with isActive := true, isPaused := false } := by
  show applyEffect s.isActive s.isPaused (handleStart s) = _
  have hs : handleStart s = { s with isActive := true, isPaused := false } := by
    simp [handleStart, h]
  rw [hs]
  exact applyEffect_same _ _ _ (by simp [ha]) (by simp [hp])

theorem step_start_fresh (s : CState) (h : JSNum.gt s.timeLeft (.finite 0) = true)
    (hup : s.isActive = false ∨ s.isPaused = true) :
    step s .start = newTicker (clearTimer { s with isActive := true, isPaused := false }) := by
  show applyEffect s.isActive s.isPaused (handleStart s) = _
  have hs : handleStart s = { s with isActive := true, isPaused := false } := by
    simp [handleStart, h]
  rw [hs]
  have hcond : (({ s with isActive := true, isPaused := false } : CState).isActive == s.isActive
      && ({ s with isActive := true, isPaused := false } : CState).isPaused == s.isPaused) = false := by
    rcases hup with h1 | h1 <;> simp [h1]
  simp only [applyEffect, hcond, Bool.false_eq_true, if_false]
  rw [if_pos]
  simp [clearTimer_isActive, clearTimer_isPaused]

/-! The central reachability invariant: the list of live intervals is
exactly the content of the ref, and the ref is occupied exactly when the
component is active, unpaused and has strictly positive time left. -/

/-- Invariant of every reachable state: (1) the intervals still alive
are exactly the one held in `timerRef`; (2) `timerRef` is occupied iff
the component is active, not paused, and `timeLeft > 0`. -/
def RefInv (s : CState) : Prop :=
  s.live = s.timerRef.toList ∧
  (s.timerRef.isSome = true ↔
    (s.isActive = true ∧ s.isPaused = false ∧ JSNum.gt s.timeLeft (.finite 0) = true))

theorem refInv_init : RefInv initState := by
  constructor
  · rfl
  · simp [initState]

theorem refInv_clear_of (s : CState) (h : RefInv s) (t : CState)
    (ht : t.timerRef = s.timerRef) (hl : t.live = s.live) :
    (clearTimer t).live = [] ∧ (clearTimer t).timerRef = none := by
  refine ⟨?_, clearTimer_timerRef t⟩
  cases hr : t.timerRef with
  | none =>
      have hs : s.timerRef = none := by rw [← ht, hr]
      rw [clearTimer_of_none t hr, hl, h.1, hs]
      rfl
  | some i =>
      have hs : s.timerRef = some i := by rw [← ht, hr]
      have hlv : (clearTimer t).live = t.live.erase i := by simp [clearTimer, hr]
      rw [hlv, hl, h.1, hs]
      simp [Option.toList]

theorem refInv_step (s : CState) (op : Op) (h : RefInv s) : RefInv (step s op) := by
  obtain ⟨h1, h2⟩ := h
  cases op with
  | durationChange v =>
      rw [step_durationChange]
      cases hn : v.isNaN <;>
        simp_all [handleDurationChange, RefInv]
  | setDuration =>
      rw [step_setDuration]
      cases hd : s.duration with
      | none => simpa [handleSetDuration, hd] using ⟨h1, h2⟩
      | some v =>
          cases hgt : JSNum.gt v (.finite 0) with
          | false => simpa [handleSetDuration, hd, hgt] using ⟨h1, h2⟩
          | true =>
              have hc := refInv_clear_of s ⟨h1, h2⟩
                { s with timeLeft := v, isActive := false, isPaused := false, duration := none }
                rfl rfl
              constructor
              · simp only [handleSetDuration, hd, hgt, if_true]
                rw [hc.1, hc.2]
                rfl
              · simp only [handleSetDuration, hd, hgt, if_true]
                rw [hc.2]
                simp [clearTimer_isActive]
  | start =>
      cases hgt : JSNum.gt s.timeLeft (.finite 0) with
      | false =>
          rw [step_start_stuck s hgt]
          exact ⟨h1, h2⟩
      | true =>
          by_cases hrun : s.isActive = true ∧ s.isPaused = false
          · rw [step_start_already s hgt hrun.1 hrun.2]
            constructor
            · simpa using h1
            · have hsome : s.timerRef.isSome = true := h2.mpr ⟨hrun.1, hrun.2, hgt⟩
              simp [hsome, hgt]
          · have hup : s.isActive = false ∨ s.isPaused = true := by
              by_cases ha : s.isActive = true
              · by_cases hp : s.isPaused = false
                · exact absurd ⟨ha, hp⟩ hrun
                · exact .inr (by simpa using hp)
              · exact .inl (by simpa using ha)
            rw [step_start_fresh s hgt hup]
            have hc := refInv_clear_of s ⟨h1, h2⟩
              { s with isActive := true, isPaused := false } rfl rfl
            constructor
            · simp only [newTicker]
              rw [hc.1]
              simp [Option.toList]
            · simp [newTicker, clearTimer_isActive, clearTimer_isPaused,
                clearTimer_timeLeft, hgt]
  | pause =>
      rw [step_pause]
      by_cases ha : s.isActive = true
      · have hc := refInv_clear_of s ⟨h1, h2⟩
          { s with isPaused := true, isActive := false } rfl rfl
        constructor
        · simp only [handlePause, ha, if_true]
          rw [hc.1, hc.2]
          rfl
        · simp only [handlePause, ha, if_true]
          rw [hc.2]
          simp [clearTimer_isActive]
      · have ha' : s.isActive = false := by simpa using ha
        simpa [handlePause, ha'] using ⟨h1, h2⟩
  | reset =>
      rw [step_reset]
      have hc := refInv_clear_of s ⟨h1, h2⟩
        { s with isActive := false, isPaused := false,
                 timeLeft := s.duration.getD (.finite 0) } rfl rfl
      constructor
      · simp only [handleReset]
        rw [hc.1, hc.2]
        rfl
      · simp only [handleReset]
        rw [hc.2]
        simp [clearTimer_isActive]
  | tick i =>
      by_cases hin : i ∈ s.live
      · have hsome : s.timerRef = some i := by
          cases hr : s.timerRef with
          | none => rw [h1, hr] at hin; simp [Option.toList] at hin
          | some j =>
              rw [h1, hr] at hin
              simp [Option.toList] at hin
              rw [hin]
        have hrun := h2.mp (by rw [hsome]; rfl)
        rw [step_tick_live s i hin]
        cases hle : JSNum.le s.timeLeft (.finite 1) with
        | true =>
            have hc := refInv_clear_of s ⟨h1, h2⟩ s rfl rfl
            have hneg : JSNum.gt s.timeLeft.subOne (.finite 0) = false := by
              cases htl : s.timeLeft with
              | finite q =>
                  have hq1 : q ≤ 1 := by
                    have := hle
                    rw [htl] at this
                    simpa [JSNum.le, JSNum.lt, decide_eq_true_eq] using this
                  simp only [JSNum.subOne, JSNum.gt, JSNum.lt,
                    decide_eq_false_iff_not]
                  intro hlt
                  linarith
              | posInf => rw [htl] at hle; simp [JSNum.le, JSNum.lt] at hle
              | negInf =>
                  rw [htl] at hrun
                  simp [JSNum.gt, JSNum.lt] at hrun
              | nan =>
                  rw [htl] at hrun
                  simp [JSNum.gt, JSNum.lt] at hrun
            constructor
            · simp only [tickBody, hle, if_true]
              rw [hc.1, hc.2]
              rfl
            · simp only [tickBody, hle, if_true]
              rw [hc.2]
              simp [hneg]
        | false =>
            have hpos : JSNum.gt s.timeLeft.subOne (.finite 0) = true := by
              cases htl : s.timeLeft with
              | finite q =>
                  have hq1 : ¬ q ≤ 1 := by
                    have := hle
                    rw [htl] at this
                    simpa [JSNum.le, JSNum.lt, decide_eq_true_eq] using this
                  simp only [JSNum.subOne, JSNum.gt, JSNum.lt, decide_eq_true_eq]
                  linarith [lt_of_not_le hq1]
              | posInf => simp [JSNum.subOne, JSNum.gt, JSNum.lt]
              | negInf =>
                  rw [htl] at hrun
                  simp [JSNum.gt, JSNum.lt] at hrun
              | nan =>
                  rw [htl] at hrun
                  simp [JSNum.gt, JSNum.lt] at hrun
            constructor
            · simp only [tickBody, hle, Bool.false_eq_true, if_false]
              simpa using h1
            · simp only [tickBody, hle, Bool.false_eq_true, if_false]
              simp [hsome, hrun.1, hrun.2.1, hpos]
      · rw [step_tick_dead s i hin]
        exact ⟨h1, h2⟩

/-- Any property preserved by every step holds in every reachable state. -/
theorem foldl_preserve (P : CState → Prop)
    (hstep : ∀ s op, P s → P (step s op)) :
    ∀ (ops : List Op) (s : CState), P s → P (ops.foldl step s) := by
  intro ops
  induction ops with
  | nil => intro s hs; exact hs
  | cons op ops ih => intro s hs; exact ih (step s op) (hstep s op hs)

theorem refInv_run (ops : List Op) : RefInv (run ops) :=
  foldl_preserve RefInv refInv_step ops initState refInv_init

/-! A second invariant, active when every duration input delivered to
the change handler is a non-negative whole number: `timeLeft` is then
always a natural number, and at least 1 whenever an interval is live. -/

/-- Under whole-number inputs: `timeLeft` is a natural number, every
stored duration is a natural number, and a live interval implies
`timeLeft ≥ 1`. -/
def NatState (s : CState) : Prop :=
  (∃ n : ℕ, s.timeLeft = .finite n) ∧
  (∀ v, s.duration = some v → ∃ n : ℕ, v = .finite n) ∧
  (s.timerRef.isSome = true → ∃ n : ℕ, 1 ≤ n ∧ s.timeLeft = .finite n)

theorem natState_init : NatState initState := by
  refine ⟨⟨0, by norm_num [initState]⟩, ?_, ?_⟩ <;> simp [initState]

theorem natOp_durationChange (v : JSNum) (h : natOp (.durationChange v) = true) :
    ∃ n : ℕ, v = .finite n := by
  cases v with
  | finite q =>
      have hq : q.den = 1 ∧ 0 ≤ q.num := by
        simpa [natOp, Bool.and_eq_true, decide_eq_true_eq] using h
      refine ⟨q.num.toNat, ?_⟩
      have h1 : (q.num : ℚ) = q := Rat.coe_int_num_of_den_eq_one hq.1
      have h2 : (q.num.toNat : ℤ) = q.num := Int.toNat_of_nonneg hq.2
      have h3 : ((q.num.toNat : ℕ) : ℚ) = q := by
        rw [← h1]
        exact_mod_cast congrArg (fun z : ℤ => (z : ℚ)) h2
      rw [h3]
  | posInf => simp [natOp] at h
  | negInf => simp [natOp] at h
  | nan => simp [natOp] at h

theorem natState_step (s : CState) (op : Op) (hI : RefInv s) (hN : NatState s)
    (hop : natOp op = true) : NatState (step s op) := by
  obtain ⟨hT, hD, hR⟩ := hN
  cases op with
  | durationChange v =>
      rw [step_durationChange]
      obtain ⟨n, rfl⟩ := natOp_durationChange v hop
      have hnn : (JSNum.finite (n : ℚ)).isNaN = false := rfl
      refine ⟨?_, ?_, ?_⟩
      · simpa [handleDurationChange, hnn] using hT
      · intro w hw
        simp only [handleDurationChange, hnn, Bool.false_eq_true, if_false,
          Option.some.injEq] at hw
        exact ⟨n, hw.symm⟩
      · intro hs
        apply hR
        simpa [handleDurationChange, hnn] using hs
  | setDuration =>
      rw [step_setDuration]
      cases hd : s.duration with
      | none => simpa [handleSetDuration, hd] using ⟨hT, hD, hR⟩
      | some v =>
          cases hgt : JSNum.gt v (.finite 0) with
          | false => simpa [handleSetDuration, hd, hgt] using ⟨hT, hD, hR⟩
          | true =>
              obtain ⟨n, rfl⟩ := hD v hd
              refine ⟨?_, ?_, ?_⟩ <;>
                simp only [handleSetDuration, hd, hgt, if_true,
                  clearTimer_timeLeft, clearTimer_duration, clearTimer_timerRef]
              · exact ⟨n, rfl⟩
              · simp
              · simp
  | start =>
      cases hgt : JSNum.gt s.timeLeft (.finite 0) with
      | false => rw [step_start_stuck s hgt]; exact ⟨hT, hD, hR⟩
      | true =>
          obtain ⟨m, hm⟩ := hT
          have hm1 : 1 ≤ m := by
            rw [hm] at hgt
            simp only [JSNum.gt, JSNum.lt, decide_eq_true_eq] at hgt
            exact_mod_cast Nat.one_le_iff_ne_zero.mpr (by
              intro h0
              rw [h0] at hgt
              norm_num at hgt)
          by_cases hrun : s.isActive = true ∧ s.isPaused = false
          · rw [step_start_already s hgt hrun.1 hrun.2]
            exact ⟨⟨m, hm⟩, hD, fun h => hR h⟩
          · have hup : s.isActive = false ∨ s.isPaused = true := by
              by_cases ha : s.isActive = true
              · by_cases hp : s.isPaused = false
                · exact absurd ⟨ha, hp⟩ hrun
                · exact .inr (by simpa using hp)
              · exact .inl (by simpa using ha)
            rw [step_start_fresh s hgt hup]
            refine ⟨?_, ?_, ?_⟩ <;>
              simp only [newTicker, clearTimer_timeLeft, clearTimer_duration]
            · exact ⟨m, hm⟩
            · exact hD
            · intro _
              exact ⟨m, hm1, hm⟩
  | pause =>
      rw [step_pause]
      by_cases ha : s.isActive = true
      · refine ⟨?_, ?_, ?_⟩ <;>
          simp only [handlePause, ha, if_true, clearTimer_timeLeft,
            clearTimer_duration, clearTimer_timerRef]
        · exact hT
        · exact hD
        · simp
      · have ha' : s.isActive = false := by simpa using ha
        simpa [handlePause, ha'] using ⟨hT, hD, hR⟩
  | reset =>
      rw [step_reset]
      refine ⟨?_, ?_, ?_⟩ <;>
        simp only [handleReset, clearTimer_timeLeft, clearTimer_duration,
          clearTimer_timerRef]
      · cases hd : s.duration with
        | none => exact ⟨0, by norm_num⟩
        | some v =>
            obtain ⟨n, rfl⟩ := hD v hd
            exact ⟨n, rfl⟩
      · exact hD
      · simp
  | tick i =>
      by_cases hin : i ∈ s.live
      · have hsome : s.timerRef = some i := by
          cases hr : s.timerRef with
          | none => rw [hI.1, hr] at hin; simp [Option.toList] at hin
          | some j =>
              rw [hI.1, hr] at hin
              simp [Option.toList] at hin
              rw [hin]
        obtain ⟨n, hn1, hn⟩ := hR (by rw [hsome]; rfl)
        have hsub : s.timeLeft.subOne = .finite ((n - 1 : ℕ) : ℚ) := by
          rw [hn]
          simp only [JSNum.subOne]
          congr 1
          push_cast [hn1]
          ring
        rw [step_tick_live s i hin]
        cases hle : JSNum.le s.timeLeft (.finite 1) with
        | true =>
            refine ⟨?_, ?_, ?_⟩ <;>
              simp only [tickBody, hle, if_true, clearTimer_duration,
                clearTimer_timerRef]
            · exact ⟨n - 1, hsub⟩
            · exact hD
            · simp
        | false =>
            have hq1 : (1 : ℚ) < (n : ℚ) := by
              rw [hn] at hle
              simpa [JSNum.le, JSNum.lt, decide_eq_true_eq] using hle
            have hn2 : 2 ≤ n := by
              have h1n : 1 < n := by exact_mod_cast hq1
              omega
            refine ⟨?_, ?_, ?_⟩ <;>
              simp only [tickBody, hle, Bool.false_eq_true, if_false]
            · exact ⟨n - 1, hsub⟩
            · exact hD
            · intro _
              exact ⟨n - 1, by omega, hsub⟩
      · rw [step_tick_dead s i hin]
        exact ⟨hT, hD, hR⟩

/-- Any property preserved by every admissible step holds in every state
reachable by admissible events. -/
theorem foldl_preserve_nat (P : CState → Prop)
    (hstep : ∀ s op, P s → natOp op = true → P (step s op)) :
    ∀ (ops : List Op) (s : CState), P s → natOps ops = true → P (ops.foldl step s) := by
  intro ops
  induction ops with
  | nil => intro s hs _; exact hs
  | cons op ops ih =>
      intro s hs hall
      rw [natOps, List.all_cons, Bool.and_eq_true] at hall
      exact ih (step s op) (hstep s op hs hall.1) hall.2

theorem natState_run (ops : List Op) (h : natOps ops = true) : NatState (run ops) := by
  have := foldl_preserve_nat (fun s => RefInv s ∧ NatState s)
    (fun s op hp hop => ⟨refInv_step s op hp.1, natState_step s op hp.1 hp.2 hop⟩)
    ops initState ⟨refInv_init, natState_init⟩ h
  exact this.2

/-! Facts about decimal rendering, for `formatTime`. -/

/-- With at least one unit of fuel, `Nat.toDigitsCore` emits at least
one digit on top of the accumulator. -/
theorem toDigitsCore_length_ge (b : ℕ) :
    ∀ (fuel n : ℕ) (l : List Char), 1 ≤ fuel →
      l.length + 1 ≤ (Nat.toDigitsCore b fuel n l).length := by
  intro fuel
  induction fuel with
  | zero => intro n l h; omega
  | succ f ih =>
      intro n l _
      show l.length + 1 ≤
        (if n / b = 0 then Nat.digitChar (n % b) :: l
         else Nat.toDigitsCore b f (n / b) (Nat.digitChar (n % b) :: l)).length
      by_cases h0 : n / b = 0
      · rw [if_pos h0]
        simp
      · rw [if_neg h0]
        cases f with
        | zero => simp [Nat.toDigitsCore]
        | succ f' =>
            have := ih (n / b) (Nat.digitChar (n % b) :: l) (by omega)
            simp only [List.length_cons] at this
            omega

/-- A number of two or more decimal digits renders to a string of length
at least 2. -/
theorem repr_length_ge_two (n : ℕ) (h : 10 ≤ n) : 2 ≤ (Nat.repr n).length := by
  have hdiv : ¬ (n / 10 = 0) := by
    intro h0
    have := (Nat.div_eq_zero_iff (by norm_num : 0 < 10)).mp h0
    omega
  have hrepr : Nat.repr n = (Nat.toDigitsCore 10 (n + 1) n []).asString := rfl
  rw [hrepr]
  show 2 ≤ (Nat.toDigitsCore 10 (n + 1) n []).length
  have hunfold : Nat.toDigitsCore 10 (n + 1) n [] =
      Nat.toDigitsCore 10 n (n / 10) [Nat.digitChar (n % 10)] := by
    show (if n / 10 = 0 then Nat.digitChar (n % 10) :: []
          else Nat.toDigitsCore 10 n (n / 10) (Nat.digitChar (n % 10) :: [])) = _
    rw [if_neg hdiv]
  rw [hunfold]
  have := toDigitsCore_length_ge 10 n (n / 10) [Nat.digitChar (n % 10)] (by omega)
  simpa using this

/-- A number below 10 renders to a single character. -/
theorem repr_length_eq_one (n : ℕ) (h : n < 10) : (Nat.repr n).length = 1 := by
  interval_cases n <;> decide

/-- The padding in the implementation agrees with the description in
the specification: one leading zero exactly below ten. -/
theorem padStart2_repr (n : ℕ) :
    padStart2 (Nat.repr n) = if n < 10 then "0" ++ Nat.repr n else Nat.repr n := by
  by_cases h : n < 10
  · rw [if_pos h]
    unfold padStart2
    rw [repr_length_eq_one n h]
    rw [if_neg (by norm_num)]
    norm_num
    congr 1
  · rw [if_neg h]
    unfold padStart2
    rw [if_pos (repr_length_ge_two n (by omega))]

/-- The rendered time agrees with the rendering the specification
describes. -/
theorem formatTime_eq_spec (t : ℕ) : formatTime t = formatTimeSpec t := by
  unfold formatTime formatTimeSpec
  rw [padStart2_repr, padStart2_repr]

/-! The claims. -/

/-- Claim C1, counterexample: `Reset()` does not restore the duration
last set through `SetDuration`.  After SetDuration(10) (which clears the
input field), Start and Pause, the claim says Reset restores TimeLeft to
10; the code sets TimeLeft to 0, because `handleReset` copies the
current input-field value (now `""`). -/
theorem C1_counterexample :
    (run [.durationChange (.finite 10), .setDuration]).timeLeft = .finite 10 ∧
    (run [.durationChange (.finite 10), .setDuration, .start, .pause]).timeLeft
      = .finite 10 ∧
    (run [.durationChange (.finite 10), .setDuration, .start, .pause, .reset]).timeLeft
      = .finite 0 :=
  ⟨by decide, by decide, by decide⟩

/-- Claim C1, amended: `Reset()` is always valid, transitions to Idle,
releases any interval, and sets TimeLeft to the value currently stored
in the duration input field when that is a number (whether or not it was
ever submitted through SetDuration), and to 0 otherwise — not to the
last successfully set duration. -/
theorem C1_reset_behavior (s : CState) :
    step s .reset = clearTimer { s with
      isActive := false
      isPaused := false
      timeLeft := s.duration.getD (.finite 0) } := by
  rw [step_reset]
  rfl

/-- Claim C2, counterexample: after SetDuration(1), Start and one tick,
the component is still active and unpaused (RunState is Running) but the
interval handle is null, refuting the claimed equivalence. -/
theorem C2_counterexample :
    (run [.durationChange (.finite 1), .setDuration, .start, .tick 0]).isActive = true ∧
    (run [.durationChange (.finite 1), .setDuration, .start, .tick 0]).isPaused = false ∧
    (run [.durationChange (.finite 1), .setDuration, .start, .tick 0]).timerRef = none :=
  ⟨by decide, by decide, by decide⟩

/-- Claim C2, amended: in every reachable state, the interval handle is
non-null if and only if the component is active, unpaused AND TimeLeft
is strictly positive (after the countdown completes, the run flags still
say Running while the handle is already null). -/
theorem C2_ticker_iff_running_positive (ops : List Op) :
    (run ops).timerRef.isSome = true ↔
      ((run ops).isActive = true ∧ (run ops).isPaused = false ∧
        JSNum.gt (run ops).timeLeft (.finite 0) = true) :=
  (refInv_run ops).2

/-- Claim C3, counterexample: TimeLeft can become negative.  Typing `-5`
into the duration field (without pressing Set) and pressing Reset makes
TimeLeft equal to -5. -/
theorem C3_counterexample :
    (run [.durationChange (.finite (-5)), .reset]).timeLeft = .finite (-5) ∧
    JSNum.lt (run [.durationChange (.finite (-5)), .reset]).timeLeft (.finite 0) = true :=
  ⟨by decide, by decide⟩

/-- Claim C3, amended: provided every value delivered by the duration
input is a non-negative whole number, TimeLeft is a natural number in
every reachable state (in particular never negative), and whenever it is
0 no interval is live, so ticking has self-terminated. -/
theorem C3_nonneg_of_nat_inputs (ops : List Op) (h : natOps ops = true) :
    (∃ n : ℕ, (run ops).timeLeft = .finite n) ∧
    ((run ops).timeLeft = .finite 0 → (run ops).live = []) := by
  have hN := natState_run ops h
  refine ⟨hN.1, ?_⟩
  intro h0
  have hI := refInv_run ops
  cases hr : (run ops).timerRef with
  | none => rw [hI.1, hr]; rfl
  | some i =>
      obtain ⟨n, hn1, hn⟩ := hN.2.2 (by rw [hr]; rfl)
      have heq : JSNum.finite 0 = JSNum.finite (n : ℚ) := h0.symm.trans hn
      have hq : (0 : ℚ) = (n : ℚ) := by
        injection heq
      have hn0 : n = 0 := by exact_mod_cast hq.symm
      omega

/-- Witness for C3: a concrete admissible run (SetDuration(3), Start,
one tick) on which the amended theorem applies. -/
theorem C3_nonneg_witness :
    natOps [.durationChange (.finite 3), .setDuration, .start, .tick 0] = true ∧
    ((∃ n : ℕ, (run [.durationChange (.finite 3), .setDuration, .start, .tick 0]).timeLeft
        = .finite n) ∧
      ((run [.durationChange (.finite 3), .setDuration, .start, .tick 0]).timeLeft
          = .finite 0 →
        (run [.durationChange (.finite 3), .setDuration, .start, .tick 0]).live = [])) :=
  ⟨by decide, C3_nonneg_of_nat_inputs _ (by decide)⟩

/-- Claim C4, counterexample: the tick is not floored at 0.  With the
accepted duration 1/2, Start establishes a ticker while TimeLeft = 1/2;
one tick then sets TimeLeft to -1/2 rather than to max(1/2 - 1, 0) = 0. -/
theorem C4_counterexample :
    (run [.durationChange (.finite (1/2)), .setDuration, .start]).timeLeft
      = .finite (1/2) ∧
    (run [.durationChange (.finite (1/2)), .setDuration, .start]).timerRef.isSome
      = true ∧
    (run [.durationChange (.finite (1/2)), .setDuration, .start, .tick 0]).timeLeft
      = .finite (-(1/2)) := by
  refine ⟨?_, ?_, ?_⟩ <;>
    norm_num [run, step, applyEffect, handleDurationChange, handleSetDuration,
      handleStart, tickBody, clearTimer, newTicker, initState, JSNum.gt,
      JSNum.lt, JSNum.le, JSNum.subOne, JSNum.isNaN]

/-- Claim C4, amended: a tick fired by a live interval sets TimeLeft to
exactly TimeLeft - 1 (no flooring), releases the interval handle exactly
when the previous TimeLeft was at most 1 (so, on whole-number values,
exactly when TimeLeft hits 0), and leaves the run flags and the duration
input unchanged. -/
theorem C4_tick_behavior (s : CState) (i : ℕ) (h : i ∈ s.live) :
    (step s (.tick i)).timeLeft = s.timeLeft.subOne ∧
    (step s (.tick i)).timerRef
      = (if JSNum.le s.timeLeft (.finite 1) = true then none else s.timerRef) ∧
    (step s (.tick i)).isActive = s.isActive ∧
    (step s (.tick i)).isPaused = s.isPaused ∧
    (step s (.tick i)).duration = s.duration := by
  rw [step_tick_live s i h]
  cases hle : JSNum.le s.timeLeft (.finite 1) <;>
    simp [tickBody, hle, clearTimer_timerRef, clearTimer_timeLeft,
      clearTimer_isActive, clearTimer_isPaused, clearTimer_duration]

/-- Witness for C4: the amended tick theorem applied to the concrete
reachable state after SetDuration(2) and Start, whose interval 0 is live. -/
theorem C4_tick_behavior_witness :
    (0 : ℕ) ∈ (run [.durationChange (.finite 2), .setDuration, .start]).live ∧
    (step (run [.durationChange (.finite 2), .setDuration, .start]) (.tick 0)).timeLeft
      = (run [.durationChange (.finite 2), .setDuration, .start]).timeLeft.subOne :=
  ⟨by decide,
    (C4_tick_behavior (run [.durationChange (.finite 2), .setDuration, .start]) 0
      (by decide)).1⟩

/-- Claim C5, counterexample: finiteness is not checked.  The input
string `1e999` coerces to Infinity, which `handleDurationChange` stores;
`handleSetDuration` then accepts it (Infinity > 0) and sets TimeLeft to
Infinity instead of ignoring the non-finite input. -/
theorem C5_counterexample :
    (run [.durationChange .posInf]).duration = some .posInf ∧
    (run [.durationChange .posInf]).timeLeft = .finite 0 ∧
    (run [.durationChange .posInf, .setDuration]).timeLeft = .posInf :=
  ⟨by decide, by decide, by decide⟩

/-- Claim C5, amended: SetDuration takes effect exactly when the stored
duration is a number greater than 0 — including positive Infinity, whose
finiteness is not checked — in which case it sets TimeLeft to it, forces
Idle, clears any interval and clears the input field; for a non-numeric
store (the cleared field), zero, negatives and NaN it is a silent no-op. -/
theorem C5_setDuration_behavior (s : CState) :
    step s .setDuration =
      (match s.duration with
       | some v =>
           if JSNum.gt v (.finite 0) then
             clearTimer { s with
               timeLeft := v
               isActive := false
               isPaused := false
               duration := none }
           else s
       | none => s) := by
  rw [step_setDuration]
  rfl

/-- Claim C6: in every reachable state, at most one interval is live:
every operation that stops or pauses ticking clears the existing handle
(and the effect cleanup runs) before any new interval is created. -/
theorem C6_at_most_one_ticker (ops : List Op) : (run ops).live.length ≤ 1 := by
  rw [(refInv_run ops).1]
  cases (run ops).timerRef <;> simp [Option.toList]

/-- Claim C7: Pause takes effect exactly when `isActive` is true, in
which case it pauses, deactivates and clears the interval while leaving
TimeLeft and the duration input exactly unchanged; otherwise it changes
nothing at all. -/
theorem C7_pause_behavior (s : CState) :
    step s .pause
      = (if s.isActive then clearTimer { s with isPaused := true, isActive := false }
         else s) ∧
    (step s .pause).timeLeft = s.timeLeft ∧
    (step s .pause).duration = s.duration := by
  rw [step_pause]
  refine ⟨rfl, ?_, ?_⟩ <;>
    by_cases h : s.isActive = true <;>
    simp [handlePause, h, clearTimer_timeLeft, clearTimer_duration]

/-- Claim C8: `formatTime` renders a natural number of seconds as
`MM:SS` with minutes `t / 60` and seconds `t % 60`, each zero-padded to
at least two digits, matching the rendering the specification gives; in
particular `formatTime 65 = "01:05"` and `formatTime 0 = "00:00"`. -/
theorem C8_formatTime (t : ℕ) :
    formatTime t = formatTimeSpec t ∧
    formatTime 65 = "01:05" ∧ formatTime 0 = "00:00" :=
  ⟨formatTime_eq_spec t, by decide, by decide⟩

/-- Claim C9: `Reset()` never touches the pending duration input, and
the value it copies into TimeLeft is the current input-field value (or 0
when the field holds a string), not a separately remembered last-set
duration. -/
theorem C9_reset_frame (s : CState) :
    (step s .reset).duration = s.duration ∧
    (step s .reset).timeLeft = s.duration.getD (.finite 0) := by
  rw [step_reset]
  exact ⟨by simp [handleReset, clearTimer_duration],
    by simp [handleReset, clearTimer_timeLeft]⟩

/-- Claim C10: the empty input string coerces to the number 0, which the
change handler stores as the pending duration (not as the absent value);
from such a state SetDuration is a complete no-op (0 is not greater
than 0) while Reset sets TimeLeft to 0. -/
theorem C10_empty_input (s : CState) :
    jsStringToNumber "" = .finite 0 ∧
    (step s (.durationChange (jsStringToNumber ""))).duration = some (.finite 0) ∧
    step (step s (.durationChange (jsStringToNumber ""))) .setDuration
      = step s (.durationChange (jsStringToNumber "")) ∧
    (step (step s (.durationChange (jsStringToNumber ""))) .reset).timeLeft
      = .finite 0 := by
  have h0 : jsStringToNumber "" = .finite 0 := by decide
  have h1 : step s (.durationChange (jsStringToNumber ""))
      = { s with duration := some (.finite 0) } := by
    rw [h0, step_durationChange]
    rfl
  refine ⟨h0, ?_, ?_, ?_⟩
  · rw [h1]
  · rw [h1, step_setDuration]
    simp [handleSetDuration, JSNum.gt, JSNum.lt]
  · rw [h1, step_reset]
    simp [handleReset, clearTimer_timeLeft]
